import Mathlib

/-
Verification of the malva-II widget repository.

The repository is a set of self-contained visual UI widgets (logo preloader,
infinite draggable gallery, minimal video player, responsive grid, analog
clock, hover-zoom grid, ambient-glow video player).  This file gives a
shallow embedding of the pure computational cores of those widgets and
proves or refutes the stated properties about them.

Numeric values of the source (JavaScript numbers) are modelled as rationals,
except for the inertial-friction computation of the gallery, whose real
exponentiation, square roots and arctangent force a model over the reals.
-/

/-! ## Infinite gallery: pinned zoom (computePinnedOffset) -/

/-- A 2D point, as used by the gallery for pivots and offsets. -/
structure Point where
  x : ℚ
  y : ℚ
deriving DecidableEq, Repr

/-- Embedding of computePinnedOffset from the gallery sources.  The world
coordinate under the pivot at the previous cell size is recomputed into an
offset that places the same world coordinate under the pivot at the next
cell size. -/
def computePinnedOffset (prevSize nextSize : ℚ) (pivot prevOffset : Point) : Point :=
  let worldX := (pivot.x - prevOffset.x) / prevSize
  let worldY := (pivot.y - prevOffset.y) / prevSize
  ⟨pivot.x - worldX * nextSize, pivot.y - worldY * nextSize⟩

/-! ## AmbiLight: glow layer opacity -/

/-- Embedding of the glowOpacity computation of AmbiLight.tsx: the glow is
visible only when the configured intensity is positive, and then its opacity
is the intensity while the main video is playing and 0 otherwise. -/
def glowOpacity (intensity : ℚ) (isPlaying : Bool) : ℚ :=
  if 0 < intensity then (if isPlaying then intensity else 0) else 0

/-! ## Minimal video player: failure handlers -/

/-- The local UI state of the MinimalVideoPlayer component: exactly the
useState variables of the source. -/
structure PlayerState where
  isPlaying : Bool
  currentTime : ℚ
  duration : ℚ
  showPlayButton : Bool
  isHovered : Bool
  hasPlayedOnce : Bool
  showPosterImage : Bool
deriving DecidableEq, Repr

/-- Embedding of the handleError callback of the video element: it shows the
poster image and marks playback as stopped. -/
def handleError (s : PlayerState) : PlayerState :=
  { s with showPosterImage := true, isPlaying := false }

/-- Embedding of the rejection handler attached to every play() attempt
(autoplay effect and togglePlay): it only shows the poster image. -/
def handlePlayRejected (s : PlayerState) : PlayerState :=
  { s with showPosterImage := true }

/-! ## AmbiLight: glow/main video synchronisation (sync) -/

/-- The observable state of a media element that the sync callback touches. -/
structure MediaState where
  currentTime : ℚ
  paused : Bool
deriving DecidableEq, Repr

/-- Embedding of the sync timeupdate callback of AmbiLight.tsx for
non-YouTube sources.  0.2 seconds is 1/5.  The play() call is modelled as
resolving, i.e. actually unpausing the glow video. -/
def sync (v g : MediaState) : MediaState :=
  let g1 := if |g.currentTime - v.currentTime| > 1/5 then
      { g with currentTime := v.currentTime } else g
  let g2 := if v.paused && !g1.paused then { g1 with paused := true } else g1
  if !v.paused && g2.paused then { g2 with paused := false } else g2

/-! ## Theorems -/

/-- C1 counterexample.  The claim quantifies over every next cell size,
including 0; at prevSize = 1, nextSize = 0, pivot = (1,1), prevOffset =
(0,0) the pinned-zoom equation (pivot - newOffset) / nextSize =
(pivot - prevOffset) / prevSize fails on the x axis (and likewise on y). -/
theorem computePinnedOffset_claim_fails_at_zero_nextSize :
    ¬ ((((1:ℚ) - (computePinnedOffset 1 0 ⟨1, 1⟩ ⟨0, 0⟩).x) / 0
          = ((1:ℚ) - 0) / 1)
        ∧ (((1:ℚ) - (computePinnedOffset 1 0 ⟨1, 1⟩ ⟨0, 0⟩).y) / 0
          = ((1:ℚ) - 0) / 1)) := by
  simp only [computePinnedOffset]
  norm_num

/-- C1 (amended).  For every previous cell size prevSize different from 0 and
every next cell size nextSize different from 0, every pivot and every
previous offset, the offset returned by computePinnedOffset keeps the world
coordinate under the pivot unchanged in both axes, and when nextSize equals
prevSize the returned offset is the previous offset. -/
theorem computePinnedOffset_pinned_exact (prevSize nextSize : ℚ)
    (pivot prevOffset : Point) (hp : prevSize ≠ 0) (hn : nextSize ≠ 0) :
    ((pivot.x - (computePinnedOffset prevSize nextSize pivot prevOffset).x) / nextSize
        = (pivot.x - prevOffset.x) / prevSize)
      ∧ ((pivot.y - (computePinnedOffset prevSize nextSize pivot prevOffset).y) / nextSize
        = (pivot.y - prevOffset.y) / prevSize)
      ∧ (nextSize = prevSize →
          computePinnedOffset prevSize nextSize pivot prevOffset = prevOffset) := by
  refine ⟨?_, ?_, ?_⟩
  · simp only [computePinnedOffset]
    field_simp
    ring
  · simp only [computePinnedOffset]
    field_simp
    ring
  · intro h
    subst h
    cases pivot with
    | mk px py =>
      cases prevOffset with
      | mk ox oy =>
        simp only [computePinnedOffset, Point.mk.injEq]
        constructor <;> field_simp

/-- C1 witness: the amended theorem applied at prevSize = 2, nextSize = 3,
pivot = (5, 7), prevOffset = (1, 2). -/
theorem computePinnedOffset_pinned_exact_witness :
    (((5:ℚ) - (computePinnedOffset 2 3 ⟨5, 7⟩ ⟨1, 2⟩).x) / 3 = ((5:ℚ) - 1) / 2)
      ∧ (((7:ℚ) - (computePinnedOffset 2 3 ⟨5, 7⟩ ⟨1, 2⟩).y) / 3 = ((7:ℚ) - 2) / 2) := by
  have h := computePinnedOffset_pinned_exact 2 3 ⟨5, 7⟩ ⟨1, 2⟩
    (by norm_num) (by norm_num)
  exact ⟨h.1, h.2.1⟩

/-- C10.  The glow opacity equals the configured intensity exactly when the
intensity is positive and the main video is playing, and is 0 otherwise. -/
theorem glowOpacity_exact (intensity : ℚ) (isPlaying : Bool) :
    glowOpacity intensity isPlaying
      = if 0 < intensity ∧ isPlaying = true then intensity else 0 := by
  cases isPlaying <;> simp [glowOpacity]

/-- C4.  After the error handler the poster is shown and playback is marked
stopped while every other state variable is untouched, and after a rejected
play() attempt only showPosterImage changes (to true). -/
theorem videoPlayer_failure_shows_poster (s : PlayerState) :
    (handleError s).showPosterImage = true
      ∧ (handleError s).isPlaying = false
      ∧ (handleError s).currentTime = s.currentTime
      ∧ (handleError s).duration = s.duration
      ∧ (handleError s).showPlayButton = s.showPlayButton
      ∧ (handleError s).isHovered = s.isHovered
      ∧ (handleError s).hasPlayedOnce = s.hasPlayedOnce
      ∧ (handlePlayRejected s).showPosterImage = true
      ∧ (handlePlayRejected s).isPlaying = s.isPlaying
      ∧ (handlePlayRejected s).currentTime = s.currentTime
      ∧ (handlePlayRejected s).duration = s.duration
      ∧ (handlePlayRejected s).showPlayButton = s.showPlayButton
      ∧ (handlePlayRejected s).isHovered = s.isHovered
      ∧ (handlePlayRejected s).hasPlayedOnce = s.hasPlayedOnce := by
  simp [handleError, handlePlayRejected]

/-- C7.  After every invocation of sync, either the glow video was already
within 0.2 seconds of the main video and its clock is untouched, or its
clock is set equal to the main clock; and afterwards the glow video is
paused exactly when the main video is paused. -/
theorem ambilight_sync_keeps_glow_in_sync (v g : MediaState) :
    ((|g.currentTime - v.currentTime| ≤ 1/5
        ∧ (sync v g).currentTime = g.currentTime)
      ∨ (sync v g).currentTime = v.currentTime)
      ∧ (sync v g).paused = v.paused := by
  obtain ⟨vt, vp⟩ := v
  obtain ⟨gt, gp⟩ := g
  simp only [sync]
  by_cases hd : |gt - vt| > (1:ℚ)/5
  · rw [if_pos hd]
    cases vp <;> cases gp <;> simp
  · rw [if_neg hd]
    cases vp <;> cases gp <;> simp <;>
      exact Or.inl (by linarith [not_lt.mp hd])

/-! ## Logo preloader: display phases -/

/-- The display phase of the LogoPreloader, as in the useState call of the
source: init, loading, logoOut, done. -/
inductive Phase
  | init
  | loading
  | logoOut
  | done
deriving DecidableEq, Repr

/-- Rank of a phase in the intended forward progression. -/
def Phase.rank : Phase → Nat
  | .init => 0
  | .loading => 1
  | .logoOut => 2
  | .done => 3

/-- The three timeouts registered by the preloader effect, in registration
order: delay in milliseconds after mount, paired with the phase the callback
sets. -/
def preloaderSchedule (duration : ℚ) : List (ℚ × Phase) :=
  [(50, .loading), (duration * 1000 + 50, .logoOut), (duration * 1000 + 750, .done)]

/-- The phase visible at elapsed time t after mount: every timeout whose
delay has passed has fired, with later-firing callbacks overwriting earlier
ones.  For every nonnegative duration the delays of the schedule are in
registration order, so the fold below is exactly the setTimeout
semantics. -/
def phaseAt (duration t : ℚ) : Phase :=
  (preloaderSchedule duration).foldl
    (fun acc dp => if dp.1 ≤ t then dp.2 else acc) .init

/-- What the preloader renders in a phase: the logo translateY, the logo
opacity and the background opacity, or nothing at all once the phase is
done. -/
def preloaderRender (p : Phase) : Option (ℚ × ℚ × ℚ) :=
  match p with
  | .done => none
  | .init => some (80, 0, 1)
  | .loading => some (0, 1, 1)
  | .logoOut => some (-80, 0, 0)

/-! ## AmbiLight: YouTube API loader (global window state) -/

/-- The window-global mutable state touched by loadYouTubeAPI: whether the
YT API object (window.YT with YT.Player) is present, the window._ytApiLoading
flag, and the number of API script tags appended to document.head. -/
structure WindowState where
  ytReady : Bool
  ytApiLoading : Bool
  scriptTags : Nat
deriving DecidableEq, Repr

/-- Embedding of loadYouTubeAPI from AmbiLight.tsx.  It returns early when
the API object is present or a load is already in flight; otherwise it sets
the global _ytApiLoading flag and appends the API script tag to
document.head. -/
def loadYouTubeAPI (w : WindowState) : WindowState :=
  if w.ytReady then w
  else if w.ytApiLoading then w
  else { w with ytApiLoading := true, scriptTags := w.scriptTags + 1 }

/-! ## Teardown of timers and animation-frame handles -/

/-- A ledger of live browser callback handles (timeouts, intervals and
animation frames), together with a fresh-handle counter. -/
structure SchedState where
  nextId : Nat
  live : List Nat
deriving DecidableEq, Repr

/-- Scheduling a callback (setTimeout, setInterval or
requestAnimationFrame) returns a fresh handle and records it as live. -/
def scheduleCb (s : SchedState) : Nat × SchedState :=
  (s.nextId, ⟨s.nextId + 1, s.nextId :: s.live⟩)

/-- Cancelling a handle (clearTimeout, clearInterval or
cancelAnimationFrame) removes it from the live ledger. -/
def cancelCb (s : SchedState) (h : Nat) : SchedState :=
  ⟨s.nextId, s.live.erase h⟩

/-- The preloader timers effect: registers the three phase timeouts
t0, t1, t2. -/
def preloaderEffectSetup (s : SchedState) : (Nat × Nat × Nat) × SchedState :=
  let p0 := scheduleCb s
  let p1 := scheduleCb p0.2
  let p2 := scheduleCb p1.2
  ((p0.1, p1.1, p2.1), p2.2)

/-- The preloader timers effect cleanup: clears t0, t1 and t2. -/
def preloaderEffectCleanup (t : Nat × Nat × Nat) (s : SchedState) : SchedState :=
  cancelCb (cancelCb (cancelCb s t.1) t.2.1) t.2.2

/-- The video player autoplay effect: schedules the delayed play() timeout
when autoPlayDelay is positive, otherwise schedules nothing. -/
def autoplayEffectSetup (delayPositive : Bool) (s : SchedState) :
    Option Nat × SchedState :=
  if delayPositive then
    let p := scheduleCb s
    (some p.1, p.2)
  else (none, s)

/-- The video player autoplay effect cleanup: clears the timeout when one
was scheduled. -/
def autoplayEffectCleanup (t : Option Nat) (s : SchedState) : SchedState :=
  match t with
  | some h => cancelCb s h
  | none => s

/-- The AmbiLight YouTube-API polling effect: starts the 100 ms interval. -/
def ambiPollSetup (s : SchedState) : Nat × SchedState := scheduleCb s

/-- The AmbiLight polling effect cleanup: clears the interval. -/
def ambiPollCleanup (i : Nat) (s : SchedState) : SchedState := cancelCb s i

/-- The handle-relevant state of a mounted gallery instance: the handle
ledger, the press-zoom timeout handle (pressTimerRef) and the handle of the
animation-frame loop. -/
structure GalleryTimers where
  sched : SchedState
  pressTimer : Option Nat
  rafHandle : Option Nat
deriving DecidableEq, Repr

/-- Mounting the gallery starts the animation-frame loop. -/
def galleryMount (g : GalleryTimers) : GalleryTimers :=
  let p := scheduleCb g.sched
  { g with sched := p.2, rafHandle := some p.1 }

/-- handlePointerDown clears any pending press-zoom timeout and schedules
a new one (PRESS_ZOOM_DELAY). -/
def galleryPointerDown (g : GalleryTimers) : GalleryTimers :=
  let s0 := match g.pressTimer with
    | some h => cancelCb g.sched h
    | none => g.sched
  let p := scheduleCb s0
  { g with sched := p.2, pressTimer := some p.1 }

/-- handlePointerUp clears the pending press-zoom timeout. -/
def galleryPointerUp (g : GalleryTimers) : GalleryTimers :=
  match g.pressTimer with
  | some h => { g with sched := cancelCb g.sched h, pressTimer := none }
  | none => g

/-- Unmounting the gallery runs its effect cleanups.  The only cleanup in
the source that touches a handle is the RAF effect cleanup
(cancelAnimationFrame); no effect cleanup clears pressTimerRef. -/
def galleryUnmount (g : GalleryTimers) : GalleryTimers :=
  match g.rafHandle with
  | some h => { g with sched := cancelCb g.sched h, rafHandle := none }
  | none => g

/-- Helper: closed form of the phase visible at elapsed time t, for every
nonnegative duration. -/
theorem phaseAt_closed_form (d t : ℚ) (hd : 0 ≤ d) :
    phaseAt d t = if t < 50 then Phase.init
      else if t < d * 1000 + 50 then Phase.loading
      else if t < d * 1000 + 750 then Phase.logoOut
      else Phase.done := by
  simp only [phaseAt, preloaderSchedule, List.foldl]
  split_ifs <;> first
    | rfl
    | (exfalso; nlinarith)

/-- C3.  The preloader phase moves only forward along
init, loading, logoOut, done; at elapsed time t the phase is init before
50 ms, loading before duration*1000 + 50 ms, logoOut before
duration*1000 + 750 ms and done afterwards; and in phase done the component
renders nothing. -/
theorem logoPreloader_phase_progression (d s t : ℚ) (hd : 0 ≤ d)
    (hst : s ≤ t) :
    Phase.rank (phaseAt d s) ≤ Phase.rank (phaseAt d t)
      ∧ (phaseAt d t = if t < 50 then Phase.init
          else if t < d * 1000 + 50 then Phase.loading
          else if t < d * 1000 + 750 then Phase.logoOut
          else Phase.done)
      ∧ preloaderRender Phase.done = none := by
  refine ⟨?_, phaseAt_closed_form d t hd, rfl⟩
  rw [phaseAt_closed_form d s hd, phaseAt_closed_form d t hd]
  split_ifs <;> simp [Phase.rank] <;> linarith

/-- C3 witness: the theorem applied at duration 2 s, comparing elapsed
times 0 ms and 2100 ms. -/
theorem logoPreloader_phase_progression_witness :
    Phase.rank (phaseAt 2 0) ≤ Phase.rank (phaseAt 2 2100)
      ∧ preloaderRender Phase.done = none := by
  have h := logoPreloader_phase_progression 2 0 2100 (by norm_num) (by norm_num)
  exact ⟨h.1, h.2.2⟩

/-- C5 counterexample.  Calling loadYouTubeAPI on a fresh window mutates
window-global state (it sets window._ytApiLoading and appends a script
tag), so not every operation of every component touches only
instance-local UI variables. -/
theorem loadYouTubeAPI_mutates_global_window :
    loadYouTubeAPI ⟨false, false, 0⟩ ≠ ⟨false, false, 0⟩ := by
  decide

/-- C5 (amended).  The only global mutable state in the repository is the
window-level YouTube-API loading state touched by loadYouTubeAPI in
AmbiLight.tsx; that write is idempotent (at most one script tag is ever
appended, and a call on a window already marked loading changes
nothing). -/
theorem loadYouTubeAPI_global_write_idempotent (w : WindowState) :
    loadYouTubeAPI (loadYouTubeAPI w) = loadYouTubeAPI w
      ∧ (loadYouTubeAPI w).ytReady = w.ytReady
      ∧ (loadYouTubeAPI w).scriptTags ≤ w.scriptTags + 1
      ∧ (w.ytApiLoading = true → loadYouTubeAPI w = w) := by
  obtain ⟨r, l, n⟩ := w
  cases r <;> cases l <;> simp [loadYouTubeAPI]

/-- C5 witness: the amended theorem applied to a window already marked as
loading the API. -/
theorem loadYouTubeAPI_global_write_idempotent_witness :
    loadYouTubeAPI (loadYouTubeAPI ⟨false, true, 0⟩)
        = loadYouTubeAPI ⟨false, true, 0⟩
      ∧ loadYouTubeAPI ⟨false, true, 0⟩ = ⟨false, true, 0⟩ := by
  have h := loadYouTubeAPI_global_write_idempotent ⟨false, true, 0⟩
  exact ⟨h.1, h.2.2.2 rfl⟩

/-- C6 counterexample.  If the gallery unmounts during a held press
(pointer down, no pointer up), the press-zoom timeout scheduled by
handlePointerDown is still live after all effect cleanups have run: no
cleanup clears pressTimerRef. -/
theorem gallery_press_timer_survives_unmount :
    (galleryUnmount (galleryPointerDown
        (galleryMount ⟨⟨0, []⟩, none, none⟩))).sched.live ≠ [] := by
  decide

/-- C6 (amended).  Every timer and animation-frame handle scheduled by the
preloader timers effect, the video player autoplay effect, the AmbiLight
polling effect and the gallery RAF loop is cleared by the corresponding
cleanup, and a gallery press completed with pointer up also leaves no live
handle after unmount; only a press still held at unmount leaks its
press-zoom timeout. -/
theorem teardown_clears_scheduled_handles (s : SchedState)
    (g : GalleryTimers) (hp : g.pressTimer = none) :
    (preloaderEffectCleanup (preloaderEffectSetup s).1
        (preloaderEffectSetup s).2).live = s.live
      ∧ (autoplayEffectCleanup (autoplayEffectSetup true s).1
          (autoplayEffectSetup true s).2).live = s.live
      ∧ (autoplayEffectCleanup (autoplayEffectSetup false s).1
          (autoplayEffectSetup false s).2).live = s.live
      ∧ (ambiPollCleanup (ambiPollSetup s).1 (ambiPollSetup s).2).live
          = s.live
      ∧ (galleryUnmount (galleryMount g)).sched.live = g.sched.live
      ∧ (galleryUnmount (galleryPointerUp (galleryPointerDown
          (galleryMount g)))).sched.live = g.sched.live := by
  refine ⟨?_, ?_, ?_, ?_, ?_, ?_⟩ <;>
    simp [preloaderEffectSetup, preloaderEffectCleanup, autoplayEffectSetup,
      autoplayEffectCleanup, ambiPollSetup, ambiPollCleanup, galleryMount,
      galleryPointerDown, galleryPointerUp, galleryUnmount, scheduleCb,
      cancelCb, hp, List.erase_cons,
      show s.nextId + 1 + 1 ≠ s.nextId by omega,
      show s.nextId + 1 ≠ s.nextId by omega,
      show s.nextId + 1 + 1 ≠ s.nextId + 1 by omega]

/-- C6 witness: the amended theorem applied to an empty ledger and a fresh
gallery instance. -/
theorem teardown_clears_scheduled_handles_witness :
    (preloaderEffectCleanup (preloaderEffectSetup ⟨0, []⟩).1
        (preloaderEffectSetup ⟨0, []⟩).2).live = ([] : List Nat)
      ∧ (galleryUnmount (galleryPointerUp (galleryPointerDown
          (galleryMount ⟨⟨0, []⟩, none, none⟩)))).sched.live
          = ([] : List Nat) := by
  have h := teardown_clears_scheduled_handles ⟨0, []⟩ ⟨⟨0, []⟩, none, none⟩ rfl
  exact ⟨h.1, h.2.2.2.2.2⟩

/-! ## Infinite gallery: grid item lookup -/

/-- An item of the gallery, as in the GalleryItem interface. -/
structure GalleryItem where
  title : String
  imageSrc : String
  year : Int
  href : String
deriving DecidableEq, Repr

/-- Embedding of the item index of the grid loop,
Math.abs((x + y * 3) % items.length).  The JavaScript remainder operator
truncates toward zero, which is Int.tmod. -/
def itemIndex (x y : Int) (len : Nat) : Nat :=
  (Int.tmod (x + y * 3) len).natAbs

/-- The data a grid tile shows: the item at itemIndex when there is one,
with each field falling back to its placeholder (item?.title || "Project",
item?.year || 2024, item?.image?.src || default image) when the lookup
misses. -/
def tileData (items : List GalleryItem) (x y : Int) : String × Int × String :=
  let item := items.get? (itemIndex x y items.length)
  (((item.map GalleryItem.title).getD "Project"),
   ((item.map GalleryItem.year).getD 2024),
   ((item.map GalleryItem.imageSrc).getD
      "https://framerusercontent.com/images/GfGkADagM4KEibNcIiRUWlfrR0.jpg"))

/-- Helper: the magnitude of a truncated remainder is the remainder of the
magnitudes. -/
theorem natAbs_tmod_eq (a b : Int) :
    (Int.tmod a b).natAbs = a.natAbs % b.natAbs := by
  cases a <;> cases b <;>
    simp only [Int.tmod, Int.natAbs_neg, Int.ofNat_eq_natCast,
      Int.natAbs_ofNat, Int.natAbs_negSucc, Nat.succ_eq_add_one]

/-- C8.  For a non-empty items list the item index
Math.abs((x + y * 3) % items.length) is a valid index, so the tile lookup
is in bounds; for an empty items list every displayed field of the tile is
its placeholder. -/
theorem gallery_item_index_in_bounds (items : List GalleryItem) (x y : Int) :
    (items ≠ [] → itemIndex x y items.length < items.length
        ∧ (items.get? (itemIndex x y items.length)).isSome = true)
      ∧ (items = [] → tileData items x y
          = ("Project", 2024,
             "https://framerusercontent.com/images/GfGkADagM4KEibNcIiRUWlfrR0.jpg")) := by
  constructor
  · intro h
    have hlen : 0 < items.length := List.length_pos.mpr h
    have hbound : itemIndex x y items.length < items.length := by
      unfold itemIndex
      rw [natAbs_tmod_eq]
      simpa using Nat.mod_lt _ (by simpa using hlen)
    refine ⟨hbound, ?_⟩
    simp [List.get?_eq_getElem?, List.getElem?_eq_getElem hbound]
  · intro h
    subst h
    simp [tileData]

/-- C8 witness: the theorem applied to a one-element list at negative grid
coordinates, and to the empty list. -/
theorem gallery_item_index_in_bounds_witness :
    itemIndex (-7) 2 1 < 1
      ∧ tileData [] (-7) 2
        = ("Project", 2024,
           "https://framerusercontent.com/images/GfGkADagM4KEibNcIiRUWlfrR0.jpg") := by
  have h1 := gallery_item_index_in_bounds
    [⟨"Motion Study", "img", 2024, "/sample-project"⟩] (-7) 2
  have h2 := gallery_item_index_in_bounds ([] : List GalleryItem) (-7) 2
  exact ⟨(h1.1 (by simp)).1, h2.2 rfl⟩

/-! ## Minimal video player: formatTime -/

/-- Truncation toward zero of a rational number, the rounding JavaScript
uses inside its remainder operator. -/
def ratTrunc (q : ℚ) : Int := if 0 ≤ q then ⌊q⌋ else ⌈q⌉

/-- The JavaScript remainder operator on numbers: a - b * trunc(a / b). -/
def jsMod (a b : ℚ) : ℚ := a - b * ((ratTrunc (a / b) : ℤ) : ℚ)

/-- JS String.padStart(2, "0"): prepend zeros until the length is at least
two. -/
def padStartTwo (s : String) : String :=
  if s.length ≥ 2 then s
  else String.mk (List.replicate (2 - s.length) (Char.ofNat 48)) ++ s

/-- Embedding of formatTime of the minimal video player:
minutes = Math.floor(time / 60), seconds = Math.floor(time % 60), rendered
as minutes, a colon, and the seconds padded with padStart(2, "0"). -/
def formatTime (time : ℚ) : String :=
  let minutes : Int := ⌊time / 60⌋
  let seconds : Int := ⌊jsMod time 60⌋
  toString minutes ++ ":" ++ padStartTwo (toString seconds)

/-- The output shape stated by the claim, written from its words: the
string floor(t/60), a colon, and floor(t) mod 60 zero-padded to two
digits. -/
def specFormatTime (t : ℚ) : String :=
  toString ⌊t / 60⌋ ++ ":" ++ padStartTwo (toString (⌊t⌋ % 60))

/-- Helper: flooring after dividing by 60 is integer division of the floor
by 60. -/
theorem floor_div_sixty (t : ℚ) : ⌊t / 60⌋ = ⌊t⌋ / 60 := by
  have h60 : (0:ℚ) < 60 := by norm_num
  have hk : ((⌊t⌋ : ℤ) : ℚ) = 60 * ((⌊t⌋ / 60 : ℤ) : ℚ) + ((⌊t⌋ % 60 : ℤ) : ℚ) := by
    exact_mod_cast congrArg (fun z : ℤ => (z : ℚ)) (Int.ediv_add_emod ⌊t⌋ 60).symm
  have hr0 : (0:ℚ) ≤ ((⌊t⌋ % 60 : ℤ) : ℚ) := by
    exact_mod_cast Int.emod_nonneg ⌊t⌋ (by norm_num)
  have hr59 : ((⌊t⌋ % 60 : ℤ) : ℚ) ≤ 59 := by
    exact_mod_cast (by omega : ⌊t⌋ % 60 ≤ 59)
  have hfl : ((⌊t⌋ : ℤ) : ℚ) ≤ t := Int.floor_le t
  have hfu : t < ((⌊t⌋ : ℤ) : ℚ) + 1 := Int.lt_floor_add_one t
  rw [Int.floor_eq_iff]
  constructor
  · rw [le_div_iff₀ h60]
    linarith
  · rw [div_lt_iff₀ h60]
    linarith

/-- Helper: for nonnegative time the floored JavaScript remainder by 60 is
the integer floor taken modulo 60. -/
theorem floor_jsMod_sixty (t : ℚ) (ht : 0 ≤ t) :
    ⌊jsMod t 60⌋ = ⌊t⌋ % 60 := by
  have htr : ratTrunc (t / 60) = ⌊t / 60⌋ :=
    if_pos (div_nonneg ht (by norm_num))
  have hc : (60 : ℚ) * ((⌊t⌋ / 60 : ℤ) : ℚ) = (((60 * (⌊t⌋ / 60) : ℤ)) : ℚ) := by
    push_cast
    ring
  rw [jsMod, htr, floor_div_sixty, hc, Int.floor_sub_int]
  omega

/-- Helper: every natural number below 60 prints and pads to exactly two
characters. -/
theorem padded_nat_length_two :
    ∀ m : Nat, m < 60 → (padStartTwo (toString m)).length = 2 := by
  decide

/-- Helper: every natural number below 10 prints as one character. -/
theorem nat_repr_length_one :
    ∀ m : Nat, m < 10 → (toString m).length = 1 := by
  decide

/-- Helper: printing a natural number cast to an integer prints the
natural number. -/
theorem toString_intCast_nat (n : Nat) : toString ((n : ℤ)) = toString n := rfl

/-- C9.  For every nonnegative time t the rendered string equals
floor(t/60), a colon, and floor(t) mod 60 zero-padded to exactly two
digits; the seconds value lies in [0, 59]; and for t < 600 the output has
the four-character shape M:SS. -/
theorem formatTime_spec (t : ℚ) (ht : 0 ≤ t) :
    formatTime t = specFormatTime t
      ∧ 0 ≤ ⌊jsMod t 60⌋ ∧ ⌊jsMod t 60⌋ ≤ 59
      ∧ (padStartTwo (toString ⌊jsMod t 60⌋)).length = 2
      ∧ (t < 600 → (formatTime t).length = 4) := by
  have hsec : ⌊jsMod t 60⌋ = ⌊t⌋ % 60 := floor_jsMod_sixty t ht
  have h0 : (0:ℤ) ≤ ⌊t⌋ % 60 := Int.emod_nonneg _ (by norm_num)
  have h59 : ⌊t⌋ % 60 ≤ 59 := by omega
  have hpad : (padStartTwo (toString (⌊t⌋ % 60))).length = 2 := by
    have hn : ⌊t⌋ % 60 = (((⌊t⌋ % 60).toNat : ℕ) : ℤ) :=
      (Int.toNat_of_nonneg h0).symm
    rw [hn, toString_intCast_nat]
    exact padded_nat_length_two _ (by omega)
  refine ⟨?_, by omega, by omega, by rw [hsec]; exact hpad, ?_⟩
  · simp only [formatTime, specFormatTime, hsec]
  · intro h600
    have hm : ⌊t / 60⌋ = ⌊t⌋ / 60 := floor_div_sixty t
    have hfl0 : (0:ℤ) ≤ ⌊t⌋ := Int.floor_nonneg.mpr ht
    have hflu : ⌊t⌋ < 600 := Int.floor_lt.mpr (by exact_mod_cast h600)
    have hm0 : (0:ℤ) ≤ ⌊t / 60⌋ := by rw [hm]; omega
    have hm9 : ⌊t / 60⌋ < 10 := by rw [hm]; omega
    have l1 : (toString ⌊t / 60⌋).length = 1 := by
      have hn : ⌊t / 60⌋ = (((⌊t / 60⌋).toNat : ℕ) : ℤ) :=
        (Int.toNat_of_nonneg hm0).symm
      rw [hn, toString_intCast_nat]
      exact nat_repr_length_one _ (by omega)
    have l3 : (padStartTwo (toString ⌊jsMod t 60⌋)).length = 2 := by
      rw [hsec]
      exact hpad
    simp only [formatTime, String.length_append, l1, l3]
    rfl

/-- C9 witness: the theorem applied at t = 125 seconds. -/
theorem formatTime_spec_witness :
    formatTime 125 = specFormatTime 125 ∧ (formatTime 125).length = 4 := by
  have h := formatTime_spec 125 (by norm_num)
  exact ⟨h.1, h.2.2.2.2 (by norm_num)⟩

/-! ## Infinite gallery: inertial friction decay (tick loop) -/

/-- A 2D velocity in px/s, as held by velocityRef in the gallery. -/
structure Vec2 where
  x : ℝ
  y : ℝ

/-- The speed (Euclidean magnitude) of a velocity,
Math.hypot(v.x, v.y). -/
noncomputable def speed (v : Vec2) : ℝ := Real.sqrt (v.x ^ 2 + v.y ^ 2)

/-- The per-frame friction factor of the tick loop:
Math.pow(throwFriction, dt * 60). -/
noncomputable def frictionFactor (throwFriction dt : ℝ) : ℝ :=
  throwFriction ^ (dt * 60)

/-- The velocity after the exponential friction of one tick multiplies
both components by the friction factor. -/
noncomputable def decayVelocity (throwFriction dt : ℝ) (v : Vec2) : Vec2 :=
  ⟨v.x * frictionFactor throwFriction dt, v.y * frictionFactor throwFriction dt⟩

/-- The small-speed reset of the tick loop: the velocity is set to
magnitude 0.0001 along the direction Math.atan2(v.y, v.x), modelled as the
argument of the complex number v.x + v.y i. -/
noncomputable def resetVelocity (v : Vec2) : Vec2 :=
  let d := Complex.arg ⟨v.x, v.y⟩
  ⟨Real.cos d * 0.0001, Real.sin d * 0.0001⟩

/-- One inertia step of the tick animation-frame loop acting on the
velocity: exponential friction, then the reset when the decayed speed has
dropped below 1 px/s. -/
noncomputable def tickInertiaVelocity (throwFriction dt : ℝ) (v : Vec2) : Vec2 :=
  let w := decayVelocity throwFriction dt v
  if speed w < 1 then resetVelocity w else w

/-- Helper: the speed of the decayed velocity is the friction factor times
the previous speed, for a nonnegative factor. -/
theorem speed_decayVelocity (tf dt : ℝ) (v : Vec2)
    (hf : 0 ≤ frictionFactor tf dt) :
    speed (decayVelocity tf dt v) = frictionFactor tf dt * speed v := by
  simp only [speed, decayVelocity]
  rw [show (v.x * frictionFactor tf dt) ^ 2 + (v.y * frictionFactor tf dt) ^ 2
        = frictionFactor tf dt ^ 2 * (v.x ^ 2 + v.y ^ 2) by ring,
    Real.sqrt_mul (sq_nonneg _), Real.sqrt_sq hf]

/-- C2.  With 0 < throwFriction < 1 and dt > 0, one inertia tick multiplies
each velocity component by throwFriction^(dt*60), so from any speed of at
least 1 px/s the speed strictly decreases; when the decayed speed falls
below 1 px/s the velocity is reset to magnitude 0.0001 in the same
direction as the decayed velocity; and the velocity after the tick is never
exactly zero. -/
theorem inertia_friction_decay (tf dt : ℝ) (v : Vec2)
    (h0 : 0 < tf) (h1 : tf < 1) (hdt : 0 < dt) (hs : 1 ≤ speed v) :
    speed (tickInertiaVelocity tf dt v) < speed v
      ∧ tickInertiaVelocity tf dt v ≠ ⟨0, 0⟩
      ∧ (speed (decayVelocity tf dt v) < 1 →
          speed (tickInertiaVelocity tf dt v) = 0.0001
            ∧ ∃ c : ℝ, 0 < c ∧ tickInertiaVelocity tf dt v
                = ⟨c * (decayVelocity tf dt v).x,
                   c * (decayVelocity tf dt v).y⟩) := by
  have hf0 : 0 < frictionFactor tf dt := by
    unfold frictionFactor
    exact Real.rpow_pos_of_pos h0 _
  have hf1 : frictionFactor tf dt < 1 := by
    unfold frictionFactor
    exact Real.rpow_lt_one h0.le h1 (by positivity)
  have hspos : (0:ℝ) < speed v := lt_of_lt_of_le one_pos hs
  have hws : speed (decayVelocity tf dt v) = frictionFactor tf dt * speed v :=
    speed_decayVelocity tf dt v hf0.le
  have hwlt : speed (decayVelocity tf dt v) < speed v := by
    rw [hws]
    exact mul_lt_of_lt_one_left hspos hf1
  have hwpos : 0 < speed (decayVelocity tf dt v) := by
    rw [hws]
    positivity
  by_cases hw : speed (decayVelocity tf dt v) < 1
  · have htick : tickInertiaVelocity tf dt v
        = resetVelocity (decayVelocity tf dt v) := by
      unfold tickInertiaVelocity
      exact if_pos hw
    have hzne : (⟨(decayVelocity tf dt v).x, (decayVelocity tf dt v).y⟩ : ℂ) ≠ 0 := by
      intro hz
      have hx : (decayVelocity tf dt v).x = 0 := congrArg Complex.re hz
      have hy : (decayVelocity tf dt v).y = 0 := congrArg Complex.im hz
      rw [speed, hx, hy] at hwpos
      norm_num at hwpos
    have habs : Complex.abs
        ⟨(decayVelocity tf dt v).x, (decayVelocity tf dt v).y⟩
          = speed (decayVelocity tf dt v) := by
      rw [Complex.abs_apply, Complex.normSq_mk, speed,
        show (decayVelocity tf dt v).x * (decayVelocity tf dt v).x
            + (decayVelocity tf dt v).y * (decayVelocity tf dt v).y
          = (decayVelocity tf dt v).x ^ 2 + (decayVelocity tf dt v).y ^ 2 by ring]
    have hcos : Real.cos (Complex.arg
        ⟨(decayVelocity tf dt v).x, (decayVelocity tf dt v).y⟩)
          = (decayVelocity tf dt v).x / speed (decayVelocity tf dt v) := by
      have h := Complex.cos_arg hzne
      rw [habs] at h
      exact h
    have hsin : Real.sin (Complex.arg
        ⟨(decayVelocity tf dt v).x, (decayVelocity tf dt v).y⟩)
          = (decayVelocity tf dt v).y / speed (decayVelocity tf dt v) := by
      have h := Complex.sin_arg
        (⟨(decayVelocity tf dt v).x, (decayVelocity tf dt v).y⟩ : ℂ)
      rw [habs] at h
      exact h
    have hsr : speed (resetVelocity (decayVelocity tf dt v)) = 0.0001 := by
      simp only [resetVelocity, speed]
      rw [show (Real.cos (Complex.arg
            ⟨(decayVelocity tf dt v).x, (decayVelocity tf dt v).y⟩) * 0.0001) ^ 2
          + (Real.sin (Complex.arg
            ⟨(decayVelocity tf dt v).x, (decayVelocity tf dt v).y⟩) * 0.0001) ^ 2
          = (0.0001:ℝ) ^ 2 * (Real.sin (Complex.arg
              ⟨(decayVelocity tf dt v).x, (decayVelocity tf dt v).y⟩) ^ 2
            + Real.cos (Complex.arg
              ⟨(decayVelocity tf dt v).x, (decayVelocity tf dt v).y⟩) ^ 2) by ring,
        Real.sin_sq_add_cos_sq, mul_one, Real.sqrt_sq (by norm_num)]
    refine ⟨?_, ?_, ?_⟩
    · rw [htick, hsr]
      linarith
    · rw [htick]
      intro he
      rw [he] at hsr
      rw [speed] at hsr
      norm_num at hsr
    · intro _
      refine ⟨by rw [htick]; exact hsr,
        0.0001 / speed (decayVelocity tf dt v), div_pos (by norm_num) hwpos, ?_⟩
      rw [htick]
      simp only [resetVelocity, Vec2.mk.injEq]
      rw [hcos, hsin]
      constructor <;> (field_simp; ring)
  · have htick : tickInertiaVelocity tf dt v = decayVelocity tf dt v := by
      unfold tickInertiaVelocity
      exact if_neg hw
    refine ⟨by rw [htick]; exact hwlt, ?_, fun h => absurd h hw⟩
    rw [htick]
    intro he
    rw [he, speed] at hwpos
    norm_num at hwpos

/-- C2 witness: the theorem applied at throwFriction 1/2, dt 1/60 and the
velocity (1, 0), whose speed is exactly 1. -/
theorem inertia_friction_decay_witness :
    speed (tickInertiaVelocity (1/2) (1/60) ⟨1, 0⟩) < speed ⟨1, 0⟩
      ∧ tickInertiaVelocity (1/2) (1/60) ⟨1, 0⟩ ≠ ⟨0, 0⟩ := by
  have h := inertia_friction_decay (1/2) (1/60) ⟨1, 0⟩ (by norm_num)
    (by norm_num) (by norm_num) (by simp [speed])
  exact ⟨h.1, h.2.1⟩
